import Mathlib

/-!
Verification of the food-analyzer MCP server (src/src/index.ts).

The server is a single Deno HTTP handler plus one outbound vision call.
It is embedded shallowly:

* JSON values are the mutual inductive `Json` below (lists are inlined as
  `JsonList`/`JsonFields` so that every recursion is structural and
  kernel-evaluable); JavaScript property access, optional chaining,
  truthiness and `JSON.stringify(·, null, 2)` are modelled explicitly.
* The handler `Deno.serve(async (req) => ...)` becomes the pure function
  `serve`, parameterised by an oracle `vision : Json → Except String Json`
  standing for the effectful `analyzeFoodImage` call (network I/O): `.ok`
  is a resolved promise, `.error m` is a thrown exception with message `m`.
  `serve` also returns the list of arguments the oracle was applied to, so
  "the Vision Analysis Client is not invoked" is statable.
* `analyzeFoodImage`'s pure core is modelled separately as a function of
  the fetch response, parameterised by `parse : String → Except String Json`
  standing for the platform builtin `JSON.parse`.
-/

mutual

/-- JSON values.  JavaScript numbers are modelled as rationals (no NaN or
infinities arise in the paths the server exercises). -/
inductive Json where
  | null : Json
  | bool : Bool → Json
  | num : ℚ → Json
  | str : String → Json
  | arr : JsonList → Json
  | obj : JsonFields → Json
  deriving DecidableEq

/-- The elements of a JSON array. -/
inductive JsonList where
  | nil : JsonList
  | cons : Json → JsonList → JsonList
  deriving DecidableEq

/-- The fields of a JSON object, in insertion order. -/
inductive JsonFields where
  | nil : JsonFields
  | fcons : String → Json → JsonFields → JsonFields
  deriving DecidableEq

end

/-- Build a `JsonList` from a Lean list (literal sugar). -/
def jlist : List Json → JsonList
  | [] => JsonList.nil
  | x :: xs => JsonList.cons x (jlist xs)

/-- A JSON array literal. -/
def Json.mkArr (xs : List Json) : Json := Json.arr (jlist xs)

/-- Build `JsonFields` from a Lean association list (literal sugar). -/
def jfields : List (String × Json) → JsonFields
  | [] => JsonFields.nil
  | (k, v) :: fs => JsonFields.fcons k v (jfields fs)

/-- A JSON object literal. -/
def Json.mkObj (fs : List (String × Json)) : Json := Json.obj (jfields fs)

/-- First-match lookup in an object's field list (JS objects have unique
keys, so first-match agrees with JS property access). -/
def lookupFields : JsonFields → String → Option Json
  | JsonFields.nil, _ => none
  | JsonFields.fcons k v fs, key => if k = key then some v else lookupFields fs key

/-- JavaScript property access `v.k`: `undefined` (here `none`) on
non-objects; field lookup on objects. -/
def Json.getField : Json → String → Option Json
  | Json.obj fs, k => lookupFields fs k
  | _, _ => none

/-- Optional chaining `x?.k` on a possibly-undefined value. -/
def getOpt (o : Option Json) (k : String) : Option Json :=
  o.bind (fun v => v.getField k)

/-- JavaScript truthiness of a JSON value. -/
def jsTruthy : Json → Bool
  | Json.null => false
  | Json.bool b => b
  | Json.num q => if q.num = 0 then false else true
  | Json.str s => if s = "" then false else true
  | Json.arr _ => true
  | Json.obj _ => true

/-- Truthiness of a possibly-undefined value (`undefined` is falsy). -/
def truthyOpt : Option Json → Bool
  | none => false
  | some v => jsTruthy v

/-- Decimal digits of the fraction `rem / d` (with `rem < d`), most
significant first, by long division, up to `fuel` digits (JS prints
shortest round-trip decimals; for the terminating decimals that occur
here this is exact). -/
def fracDigits : Nat → Nat → Nat → String
  | 0, _, _ => ""
  | fuel + 1, rem, d =>
    if rem = 0 then ""
    else
      let r10 := rem * 10
      toString (r10 / d) ++ fracDigits fuel (r10 % d) d

/-- Rendering of a JavaScript number (here: a rational), as produced by
`String(n)` / `JSON.stringify(n)`: sign, integer part, then the decimal
digits of the fractional part. -/
def jsNumToString (q : ℚ) : String :=
  let sign := if q.num < 0 then "-" else ""
  let n := q.num.natAbs
  let d := q.den
  if n % d = 0 then sign ++ toString (n / d)
  else sign ++ toString (n / d) ++ "." ++ fracDigits 30 (n % d) d

/-- Escaping of one character inside a JSON string literal, as done by
`JSON.stringify` (the control characters that occur here). -/
def escChar (c : Char) : String :=
  if c = '"' then "\\\""
  else if c = '\\' then "\\\\"
  else if c = '\n' then "\\n"
  else if c = '\t' then "\\t"
  else if c = '\r' then "\\r"
  else String.singleton c

/-- A JSON string literal with surrounding quotes. -/
def jsonQuote (s : String) : String :=
  "\"" ++ String.join (s.data.map escChar) ++ "\""

/-- A run of `n` spaces. -/
def spaces (n : Nat) : String := String.mk (List.replicate n ' ')

mutual

/-- `JSON.stringify(v, null, 2)` at indentation `ind` — the pretty-printer
used for the tool result text. -/
def stringifyV (ind : Nat) : Json → String
  | Json.null => "null"
  | Json.bool b => cond b "true" "false"
  | Json.num q => jsNumToString q
  | Json.str s => jsonQuote s
  | Json.arr JsonList.nil => "[]"
  | Json.arr xs =>
      "[\n" ++ String.intercalate ",\n" (stringifyItems (ind + 2) xs) ++
      "\n" ++ spaces ind ++ "]"
  | Json.obj JsonFields.nil => "\x7b\x7d"
  | Json.obj fs =>
      "\x7b\n" ++ String.intercalate ",\n" (stringifyFields (ind + 2) fs) ++
      "\n" ++ spaces ind ++ "\x7d"

/-- The pretty-printed lines of an array's elements. -/
def stringifyItems (ind : Nat) : JsonList → List String
  | JsonList.nil => []
  | JsonList.cons x xs => (spaces ind ++ stringifyV ind x) :: stringifyItems ind xs

/-- The pretty-printed lines of an object's fields. -/
def stringifyFields (ind : Nat) : JsonFields → List String
  | JsonFields.nil => []
  | JsonFields.fcons k v fs =>
      (spaces ind ++ jsonQuote k ++ ": " ++ stringifyV ind v) :: stringifyFields ind fs

end

/-- `JSON.stringify(v, null, 2)` as called on a tool result. -/
def stringify2 (v : Json) : String := stringifyV 0 v

mutual

/-- JavaScript `String(v)` coercion (used by the `Method not found`
template literal): arrays join their displays with commas (null elements
blank), objects display as `[object Object]`. -/
def jsDisplay : Json → String
  | Json.null => "null"
  | Json.bool b => cond b "true" "false"
  | Json.num q => jsNumToString q
  | Json.str s => s
  | Json.arr xs => String.intercalate "," (jsDisplayItems xs)
  | Json.obj _ => "[object Object]"

/-- Displays of an array's elements for `Array.prototype.toString`. -/
def jsDisplayItems : JsonList → List String
  | JsonList.nil => []
  | JsonList.cons Json.null xs => "" :: jsDisplayItems xs
  | JsonList.cons x xs => jsDisplay x :: jsDisplayItems xs

end

/-- JavaScript string coercion in a template literal of a possibly-absent
value (`undefined` displays as the string `undefined`). -/
def jsDisplayOpt : Option Json → String
  | none => "undefined"
  | some v => jsDisplay v

/-- An HTTP response as constructed by the handler: status, the header
list passed to the `Response` constructor, and the JSON value whose
serialization is the body (`none` models the `null` body of the CORS
preflight response). -/
structure HttpResponse where
  status : Nat
  headers : List (String × String)
  body : Option Json
  deriving DecidableEq

/-- The header object passed to every non-preflight `Response`. -/
def corsJsonHeaders : List (String × String) :=
  [("Content-Type", "application/json"), ("Access-Control-Allow-Origin", "*")]

/-- The header object of the OPTIONS (CORS preflight) response. -/
def corsPreflightHeaders : List (String × String) :=
  [("Access-Control-Allow-Origin", "*"),
   ("Access-Control-Allow-Methods", "POST, GET, OPTIONS"),
   ("Access-Control-Allow-Headers", "Content-Type")]

/-- The `id` entry of a response envelope: `JSON.stringify` omits a
property whose value is `undefined`, so an absent request `id` yields no
`id` key in the serialized envelope. -/
def idField : Option Json → List (String × Json)
  | some v => [("id", v)]
  | none => []

/-- An optional object entry, omitted from the serialization when the
value is `undefined` (as `JSON.stringify` does). -/
def optField (k : String) : Option Json → List (String × Json)
  | some v => [(k, v)]
  | none => []

/-- A JSON-RPC error envelope as the handler builds it. -/
def rpcError (id : Option Json) (code : ℤ) (msg : String) : Json :=
  Json.mkObj ([("jsonrpc", Json.str "2.0")] ++ idField id ++
    [("error", Json.mkObj [("code", Json.num (code : ℚ)), ("message", Json.str msg)])])

/-- A JSON-RPC success envelope as the handler builds it. -/
def rpcResult (id : Option Json) (res : Json) : Json :=
  Json.mkObj ([("jsonrpc", Json.str "2.0")] ++ idField id ++ [("result", res)])

/-- The static `initialize` result object (index.ts lines 92-105). -/
def initializeResult : Json :=
  Json.mkObj
    [("protocolVersion", Json.str "2024-11-05"),
     ("capabilities", Json.mkObj [("tools", Json.mkObj [])]),
     ("serverInfo", Json.mkObj
        [("name", Json.str "food-analyzer-mcp"), ("version", Json.str "1.0.0")])]

/-- The single static tool descriptor returned by `tools/list`
(index.ts lines 112-127). -/
def toolDescriptor : Json :=
  Json.mkObj
    [("name", Json.str "analyze_food_image"),
     ("description", Json.str "Analyzes a food image and returns detailed nutritional information including macros (calories, protein, fat, carbs), micronutrients, and ingredients"),
     ("inputSchema", Json.mkObj
        [("type", Json.str "object"),
         ("properties", Json.mkObj
            [("imageUrl", Json.mkObj
               [("type", Json.str "string"),
                ("description", Json.str "The URL or base64 data URL of the food image to analyze (supports data:image/jpeg;base64,... format)")])]),
         ("required", Json.mkArr [Json.str "imageUrl"])])]

/-- The `tools/call` placeholder result of `handleMCPRequest`
(index.ts lines 133-141); `toolName`/`arguments` entries vanish from the
serialization when the corresponding lookup is `undefined`. -/
def asyncResult (name args : Option Json) : Json :=
  Json.mkObj ([("_async", Json.bool true)] ++
    optField "toolName" name ++ optField "arguments" args)

/-- `handleMCPRequest` (index.ts lines 74-153): the synchronous MCP
dispatcher, acting on the parsed body.  The `switch` compares the
`method` property against string literals with strict equality, so any
non-string (or absent) method reaches the default branch. -/
def handleMCPRequest (body : Json) : Json :=
  let id := body.getField "id"
  match body.getField "jsonrpc" with
  | some (Json.str "2.0") =>
    match body.getField "method" with
    | some (Json.str "initialize") => rpcResult id initializeResult
    | some (Json.str "tools/list") =>
        rpcResult id (Json.mkObj [("tools", Json.mkArr [toolDescriptor])])
    | some (Json.str "tools/call") =>
        rpcResult id (asyncResult (getOpt (body.getField "params") "name")
          (getOpt (body.getField "params") "arguments"))
    | m => rpcError id (-32601) ("Method not found: " ++ jsDisplayOpt m)
  | _ => rpcError id (-32600) "Invalid Request: jsonrpc must be 2.0"

/-- The tool result the handler builds from a successful vision analysis
(index.ts lines 204-215). -/
def toolOkResult (v : Json) : Json :=
  Json.mkObj
    [("content", Json.mkArr
        [Json.mkObj [("type", Json.str "text"), ("text", Json.str (stringify2 v))]]),
     ("isError", Json.bool false)]

/-- The tool result the handler builds when the vision call throws
(index.ts lines 224-235). -/
def toolErrorResult (msg : String) : Json :=
  Json.mkObj
    [("content", Json.mkArr
        [Json.mkObj [("type", Json.str "text"),
                     ("text", Json.str ("Error analyzing food: " ++ msg))]]),
     ("isError", Json.bool true)]

/-- A 200 response carrying a serialized JSON value (the default status of
the `Response` constructor is 200). -/
def ok200 (body : Json) : HttpResponse :=
  { status := 200, headers := corsJsonHeaders, body := some body }

/-- The 400 response of the fallthrough branch (index.ts lines 269-277). -/
def invalidFormatResp : HttpResponse :=
  { status := 400, headers := corsJsonHeaders,
    body := some (Json.mkObj [("error", Json.str "Invalid request format")]) }

/-- The 500 response of the top-level catch (index.ts lines 279-291). -/
def err500 (msg : String) : HttpResponse :=
  { status := 500, headers := corsJsonHeaders,
    body := some (Json.mkObj
      [("error", Json.str "Internal server error"), ("message", Json.str msg)]) }

/-- The OPTIONS (CORS preflight) response (index.ts lines 158-166):
`new Response(null, ...)` with only the three CORS headers and default
status 200. -/
def preflightResp : HttpResponse :=
  { status := 200, headers := corsPreflightHeaders, body := none }

/-- The body of the `try` block of the handler (index.ts lines 172-277),
acting on the parsed JSON body.  Returns `.error m` when an exception with
message `m` escapes to the top-level catch, and the list of arguments the
vision oracle was applied to.  Reading `body.jsonrpc` on a `null` body
throws a TypeError, modelled with the V8 message. -/
def serveBody (vision : Json → Except String Json) (body : Json) :
    Except String HttpResponse × List Json :=
  match body with
  | Json.null =>
      (Except.error "Cannot read properties of null (reading 'jsonrpc')", [])
  | _ =>
    match body.getField "jsonrpc" with
    | some (Json.str "2.0") =>
      match body.getField "method" with
      | some (Json.str "tools/call") =>
        match getOpt (body.getField "params") "name" with
        | some (Json.str "analyze_food_image") =>
          -- Inner try/catch (index.ts lines 182-243): `if (!imageUrl)` is a
          -- truthiness test, and a thrown vision call is caught here.
          (match getOpt (getOpt (body.getField "params") "arguments") "imageUrl" with
           | some url =>
             if jsTruthy url then
               match vision url with
               | Except.ok d =>
                   (Except.ok (ok200 (rpcResult (body.getField "id") (toolOkResult d))), [url])
               | Except.error m =>
                   (Except.ok (ok200 (rpcResult (body.getField "id") (toolErrorResult m))), [url])
             else
               (Except.ok (ok200 (rpcError (body.getField "id") (-32602)
                  "Invalid params: imageUrl is required")), [])
           | none =>
               (Except.ok (ok200 (rpcError (body.getField "id") (-32602)
                  "Invalid params: imageUrl is required")), []))
        | _ => (Except.ok (ok200 (handleMCPRequest body)), [])
      | _ => (Except.ok (ok200 (handleMCPRequest body)), [])
    | _ =>
      -- Non-MCP request (legacy support, index.ts lines 257-277).
      match body.getField "image" with
      | some img =>
        if jsTruthy img then
          match vision img with
          | Except.ok d => (Except.ok (ok200 d), [img])
          | Except.error m => (Except.error m, [img])
        else (Except.ok invalidFormatResp, [])
      | none => (Except.ok invalidFormatResp, [])

/-- The full `Deno.serve` handler (index.ts lines 156-292).  `method` is
the HTTP method; `rawBody` is the outcome of `await req.json()` (`.error`
models a body that is not valid JSON).  Returns the response together
with the list of arguments passed to the vision oracle. -/
def serve (vision : Json → Except String Json) (method : String)
    (rawBody : Except String Json) : HttpResponse × List Json :=
  if method = "OPTIONS" then (preflightResp, [])
  else
    match rawBody with
    | Except.error e => (err500 e, [])
    | Except.ok body =>
      match serveBody vision body with
      | (Except.ok r, calls) => (r, calls)
      | (Except.error e, calls) => (err500 e, calls)

/-- The outcome of `fetch` + `response.json()` for the outbound vision
call: the HTTP status and the parsed response body. -/
structure FetchResponse where
  status : Nat
  body : Json
  deriving DecidableEq

/-- `response.ok` of the Fetch API: status in the inclusive range 200-299. -/
def fetchOk (r : FetchResponse) : Bool :=
  decide (200 ≤ r.status) && decide (r.status ≤ 299)

/-- `choices?.[0]` — indexing a possibly-absent value: first array element,
string property "0" on a plain object, first character of a string,
`undefined` otherwise. -/
def getIndexZero : Json → Option Json
  | Json.arr (JsonList.cons x _) => some x
  | Json.obj fs => lookupFields fs "0"
  | Json.str s => if s = "" then none else some (Json.str (s.take 1))
  | _ => none

/-- Drop one leading newline, as the `\n?` of the fence regex does. -/
def dropNewline : List Char → List Char
  | '\n' :: cs => cs
  | cs => cs

/-- One left-to-right pass of
`content.replace(/```json\n?|```\n?/g, '')` over the characters:
at each position the alternation first tries ```json (plus an optional
newline), then ``` (plus an optional newline); on a match, scanning
resumes after the match.  The fuel (the string length bounds the number
of steps) keeps the recursion structural. -/
def stripFencesGo : Nat → List Char → List Char
  | 0, cs => cs
  | _, [] => []
  | fuel + 1, c :: cs =>
    if List.isPrefixOf ("```json".data) (c :: cs) then
      stripFencesGo fuel (dropNewline ((c :: cs).drop 7))
    else if List.isPrefixOf ("```".data) (c :: cs) then
      stripFencesGo fuel (dropNewline ((c :: cs).drop 3))
    else c :: stripFencesGo fuel cs

/-- `content.replace(/```json\n?|```\n?/g, '')`: every occurrence of a
fence marker is removed, anywhere in the string. -/
def stripFences (s : String) : String :=
  String.mk (stripFencesGo s.length s.data)

/-- Whitespace removed by `String.prototype.trim` (the ASCII part). -/
def isJsWhitespace (c : Char) : Bool :=
  c = ' ' || c = '\t' || c = '\n' || c = '\r' || c = '\x0b' || c = '\x0c'

/-- JavaScript `s.trim()`. -/
def jsTrim (s : String) : String :=
  String.mk (((s.data.dropWhile isJsWhitespace).reverse.dropWhile isJsWhitespace).reverse)

/-- The `cleanedContent` of `analyzeFoodImage` (index.ts line 69):
global fence removal followed by trim. -/
def cleanContent (s : String) : String := jsTrim (stripFences s)

/-- `data.choices?.[0]?.message?.content` (index.ts line 62). -/
def extractContent (data : Json) : Option Json :=
  (getOpt ((data.getField "choices").bind getIndexZero) "message").bind
    (fun m => m.getField "content")

/-- The pure core of `analyzeFoodImage` (index.ts lines 29-71) as a
function of the fetch outcome, with `parse` standing for the builtin
`JSON.parse`.  `.error m` models a thrown exception with message `m`.
`if (!content)` is a truthiness test, so an empty-string or otherwise
falsy content also raises `No content in OpenAI response`; a truthy
non-string content would fail at `.replace` with a TypeError. -/
def analyzeFoodImage (parse : String → Except String Json)
    (resp : FetchResponse) : Except String Json :=
  if fetchOk resp then
    match resp.body with
    | Json.null => Except.error "Cannot read properties of null (reading 'choices')"
    | data =>
      match extractContent data with
      | some (Json.str s) =>
          if s = "" then Except.error "No content in OpenAI response"
          else parse (cleanContent s)
      | some v =>
          if jsTruthy v then Except.error "content.replace is not a function"
          else Except.error "No content in OpenAI response"
      | none => Except.error "No content in OpenAI response"
  else Except.error ("OpenAI API error: " ++ toString resp.status)

/-- Modelled from the spec: stripping only a LEADING and a TRAILING
markdown code-fence marker (```json and ```), the reading the spec's
words suggest, for comparison with the code's global `replace`. -/
def stripFencesSpec (s : String) : String :=
  let cs := s.data
  let cs :=
    if List.isPrefixOf ("```json".data) cs then dropNewline (cs.drop 7)
    else if List.isPrefixOf ("```".data) cs then dropNewline (cs.drop 3)
    else cs
  let rcs := cs.reverse
  let rcs := dropNewline rcs
  let rcs :=
    if List.isPrefixOf ("```".data.reverse) rcs then rcs.drop 3 else rcs
  String.mk rcs.reverse

/-- A vision oracle that always throws (used where the oracle is never
reached or its outcome is irrelevant). -/
def visionStub : Json → Except String Json := fun _ => Except.error "stub"

/-- A vision oracle that always succeeds with a fixed object. -/
def visionOk : Json → Except String Json := fun _ => Except.ok (Json.str "ok")

/-- A `JSON.parse` oracle that wraps its input as a JSON string, used to
observe exactly which text reaches the parser. -/
def parseId : String → Except String Json := fun s => Except.ok (Json.str s)

/-- A JSON-RPC-shaped body whose `jsonrpc` is `"1.0"`. -/
def c1Body : Json :=
  Json.mkObj [("jsonrpc", Json.str "1.0"), ("id", Json.num 1),
              ("method", Json.str "initialize")]

/-- C1 counterexample: a POST whose body is JSON-RPC-shaped with
`jsonrpc: "1.0"` is answered with HTTP 400 and the body
`(error: Invalid request format)` — an object with no `jsonrpc` key at
all, hence not the claimed -32600 JSON-RPC error envelope.  The server
routes non-`"2.0"` bodies to the legacy path before `handleMCPRequest`
can run its version check. -/
theorem C1_counterexample :
    (serve visionStub "POST" (Except.ok c1Body)).1.status = 400 ∧
    (serve visionStub "POST" (Except.ok c1Body)).1.body =
      some (Json.mkObj [("error", Json.str "Invalid request format")]) ∧
    (Json.mkObj [("error", Json.str "Invalid request format")]).getField "jsonrpc" = none :=
  ⟨rfl, rfl, rfl⟩

/-- `serve` on a POST request is the `try`-wrapped body handler. -/
lemma serve_post (vision : Json → Except String Json) (body : Json) :
    serve vision "POST" (Except.ok body) =
      match serveBody vision body with
      | (Except.ok r, calls) => (r, calls)
      | (Except.error e, calls) => (err500 e, calls) := by
  unfold serve
  rw [if_neg (by decide)]

/-- A non-null body whose `jsonrpc` is not `"2.0"` and whose `image` field
is not truthy reaches the 400 fallthrough, with the vision client never
invoked. -/
lemma serveBody_legacy400 (vision : Json → Except String Json) (body : Json)
    (hnn : body ≠ Json.null)
    (hne : body.getField "jsonrpc" ≠ some (Json.str "2.0"))
    (himg : truthyOpt (body.getField "image") = false) :
    serveBody vision body = (Except.ok invalidFormatResp, []) := by
  unfold serveBody
  split
  · exact absurd rfl hnn
  · split
    · exact absurd (by assumption) hne
    · split
      · rename_i img himg2
        rw [himg2] at himg
        simp only [truthyOpt] at himg
        rw [himg]
        rfl
      · rfl

/-- C1 amended: a JSON-RPC-shaped POST whose `jsonrpc` is not `"2.0"`
(and that carries no truthy `image` field) is answered with HTTP 400 and
body `(error: Invalid request format)`; the -32600 envelope of the claim
is produced only by the internal `handleMCPRequest` function, which the
server never invokes on such a body. -/
theorem C1_amended (vision : Json → Except String Json) (body : Json)
    (hj : (body.getField "jsonrpc").isSome)
    (hne : body.getField "jsonrpc" ≠ some (Json.str "2.0"))
    (himg : truthyOpt (body.getField "image") = false) :
    (serve vision "POST" (Except.ok body)).1 = invalidFormatResp ∧
    handleMCPRequest body =
      rpcError (body.getField "id") (-32600) "Invalid Request: jsonrpc must be 2.0" := by
  have hnn : body ≠ Json.null := by
    rintro rfl
    simp [Json.getField] at hj
  constructor
  · rw [serve_post, serveBody_legacy400 vision body hnn hne himg]
  · unfold handleMCPRequest
    split
    · exact absurd (by assumption) hne
    · rfl

/-- C1 witness: the amended statement evaluated on the concrete
`jsonrpc: "1.0"` body. -/
theorem C1_witness :
    (serve visionStub "POST" (Except.ok c1Body)).1 = invalidFormatResp ∧
    handleMCPRequest c1Body =
      rpcError (c1Body.getField "id") (-32600) "Invalid Request: jsonrpc must be 2.0" :=
  C1_amended visionStub c1Body (by decide) (by decide) (by decide)

/-- On a `tools/call` for `analyze_food_image` with a truthy `imageUrl`,
the handler invokes the vision client on that value and wraps its outcome
(success or caught exception) in a 200 success envelope. -/
lemma serveBody_analyze (vision : Json → Except String Json) (body url : Json)
    (h1 : body.getField "jsonrpc" = some (Json.str "2.0"))
    (h2 : body.getField "method" = some (Json.str "tools/call"))
    (h3 : getOpt (body.getField "params") "name" = some (Json.str "analyze_food_image"))
    (h4 : getOpt (getOpt (body.getField "params") "arguments") "imageUrl" = some url)
    (h5 : jsTruthy url = true) :
    serveBody vision body =
      (Except.ok (ok200 (rpcResult (body.getField "id")
        (match vision url with
         | Except.ok d => toolOkResult d
         | Except.error m => toolErrorResult m))), [url]) := by
  obtain ⟨fs, rfl⟩ : ∃ fs, body = Json.obj fs := by
    cases body <;> simp [Json.getField] at h1 ⊢
  simp only [serveBody, h1, h2, h3, h4, h5, if_pos]
  cases hv : vision url <;> simp

/-- On a `tools/call` for `analyze_food_image` with the `imageUrl`
argument absent, the handler returns the -32602 envelope and never
invokes the vision client. -/
lemma serveBody_missing_imageUrl (vision : Json → Except String Json) (body : Json)
    (h1 : body.getField "jsonrpc" = some (Json.str "2.0"))
    (h2 : body.getField "method" = some (Json.str "tools/call"))
    (h3 : getOpt (body.getField "params") "name" = some (Json.str "analyze_food_image"))
    (h4 : getOpt (getOpt (body.getField "params") "arguments") "imageUrl" = none) :
    serveBody vision body =
      (Except.ok (ok200 (rpcError (body.getField "id") (-32602)
        "Invalid params: imageUrl is required")), []) := by
  obtain ⟨fs, rfl⟩ : ∃ fs, body = Json.obj fs := by
    cases body <;> simp [Json.getField] at h1 ⊢
  simp only [serveBody, h1, h2, h3, h4]

/-- A `tools/call` naming any other tool falls through to
`handleMCPRequest`, with the vision client never invoked. -/
lemma serveBody_other_tool (vision : Json → Except String Json) (body : Json)
    (h1 : body.getField "jsonrpc" = some (Json.str "2.0"))
    (h2 : body.getField "method" = some (Json.str "tools/call"))
    (h3 : getOpt (body.getField "params") "name" ≠ some (Json.str "analyze_food_image")) :
    serveBody vision body = (Except.ok (ok200 (handleMCPRequest body)), []) := by
  obtain ⟨fs, rfl⟩ : ∃ fs, body = Json.obj fs := by
    cases body <;> simp [Json.getField] at h1 ⊢
  simp only [serveBody, h1, h2]

/-- `handleMCPRequest` on a `tools/call` builds the `_async` placeholder
result from `params?.name` and `params?.arguments`. -/
lemma handleMCP_tools_call (body : Json)
    (h1 : body.getField "jsonrpc" = some (Json.str "2.0"))
    (h2 : body.getField "method" = some (Json.str "tools/call")) :
    handleMCPRequest body =
      rpcResult (body.getField "id")
        (asyncResult (getOpt (body.getField "params") "name")
          (getOpt (body.getField "params") "arguments")) := by
  simp only [handleMCPRequest, h1, h2]

/-- A success envelope has no `error` member. -/
lemma rpcResult_error_none (id : Option Json) (res : Json) :
    (rpcResult id res).getField "error" = none := by
  cases id <;> rfl

/-- A success envelope carries its result under `result`. -/
lemma rpcResult_result (id : Option Json) (res : Json) :
    (rpcResult id res).getField "result" = some res := by
  cases id <;> rfl

/-- An error envelope has no `result` member. -/
lemma rpcError_result_none (id : Option Json) (code : ℤ) (msg : String) :
    (rpcError id code msg).getField "result" = none := by
  cases id <;> rfl

/-- The numeric code of an error envelope. -/
lemma rpcError_code (id : Option Json) (code : ℤ) (msg : String) :
    getOpt ((rpcError id code msg).getField "error") "code" = some (Json.num (code : ℚ)) := by
  cases id <;> rfl

/-- The message of an error envelope. -/
lemma rpcError_message (id : Option Json) (code : ℤ) (msg : String) :
    getOpt ((rpcError id code msg).getField "error") "message" = some (Json.str msg) := by
  cases id <;> rfl

/-- C2: a `tools/call` for `analyze_food_image` with a (truthy) `imageUrl`
on which the vision client throws with message `m` is answered with
HTTP 200 and a JSON-RPC success envelope (no `error` member) whose result
has `isError: true` and whose `content[0].text` is
`"Error analyzing food: " ++ m`; the client was invoked exactly on `url`. -/
theorem C2_tool_error_result (vision : Json → Except String Json) (body url : Json) (m : String)
    (h1 : body.getField "jsonrpc" = some (Json.str "2.0"))
    (h2 : body.getField "method" = some (Json.str "tools/call"))
    (h3 : getOpt (body.getField "params") "name" = some (Json.str "analyze_food_image"))
    (h4 : getOpt (getOpt (body.getField "params") "arguments") "imageUrl" = some url)
    (h5 : jsTruthy url = true)
    (hv : vision url = Except.error m) :
    serve vision "POST" (Except.ok body) =
      (ok200 (rpcResult (body.getField "id") (toolErrorResult m)), [url]) ∧
    (rpcResult (body.getField "id") (toolErrorResult m)).getField "error" = none ∧
    (toolErrorResult m).getField "isError" = some (Json.bool true) ∧
    getOpt (((toolErrorResult m).getField "content").bind getIndexZero) "text" =
      some (Json.str ("Error analyzing food: " ++ m)) := by
  refine ⟨?_, rpcResult_error_none _ _, rfl, rfl⟩
  rw [serve_post, serveBody_analyze vision body url h1 h2 h3 h4 h5, hv]

/-- A concrete `tools/call` request for `analyze_food_image`. -/
def c2Body : Json :=
  Json.mkObj [("jsonrpc", Json.str "2.0"), ("id", Json.num 7),
    ("method", Json.str "tools/call"),
    ("params", Json.mkObj [("name", Json.str "analyze_food_image"),
       ("arguments", Json.mkObj [("imageUrl", Json.str "https://example.com/food.jpg")])])]

/-- A vision oracle that always throws with a fixed message. -/
def visionFail : Json → Except String Json := fun _ => Except.error "fetch failed"

/-- C2 witness: the statement evaluated on a concrete request with a
throwing vision client. -/
theorem C2_witness :
    serve visionFail "POST" (Except.ok c2Body) =
      (ok200 (rpcResult (c2Body.getField "id") (toolErrorResult "fetch failed")),
       [Json.str "https://example.com/food.jpg"]) ∧
    (rpcResult (c2Body.getField "id") (toolErrorResult "fetch failed")).getField "error" = none ∧
    (toolErrorResult "fetch failed").getField "isError" = some (Json.bool true) ∧
    getOpt (((toolErrorResult "fetch failed").getField "content").bind getIndexZero) "text" =
      some (Json.str ("Error analyzing food: " ++ "fetch failed")) :=
  C2_tool_error_result visionFail c2Body (Json.str "https://example.com/food.jpg") "fetch failed"
    (by decide) (by decide) (by decide) (by decide) (by decide) rfl

/-- C3: a `tools/call` for `analyze_food_image` with a (truthy) `imageUrl`
on which the vision client returns the object `v` is answered with
HTTP 200 and a JSON-RPC success envelope whose result has
`isError: false` and whose `content[0].text` is the pretty-printed
serialization `JSON.stringify(v, null, 2)` of exactly that object. -/
theorem C3_tool_success_result (vision : Json → Except String Json) (body url v : Json)
    (h1 : body.getField "jsonrpc" = some (Json.str "2.0"))
    (h2 : body.getField "method" = some (Json.str "tools/call"))
    (h3 : getOpt (body.getField "params") "name" = some (Json.str "analyze_food_image"))
    (h4 : getOpt (getOpt (body.getField "params") "arguments") "imageUrl" = some url)
    (h5 : jsTruthy url = true)
    (hv : vision url = Except.ok v) :
    serve vision "POST" (Except.ok body) =
      (ok200 (rpcResult (body.getField "id") (toolOkResult v)), [url]) ∧
    (rpcResult (body.getField "id") (toolOkResult v)).getField "error" = none ∧
    (toolOkResult v).getField "isError" = some (Json.bool false) ∧
    getOpt (((toolOkResult v).getField "content").bind getIndexZero) "text" =
      some (Json.str (stringify2 v)) := by
  refine ⟨?_, rpcResult_error_none _ _, rfl, rfl⟩
  rw [serve_post, serveBody_analyze vision body url h1 h2 h3 h4 h5, hv]

/-- The nutrition record of the spec's example, with `0.5` and `0.3`
written as explicit fractions. -/
def appleJson : Json :=
  Json.mkObj [("name", Json.str "Apple"), ("calories", Json.num 95),
    ("protein", Json.num (mkRat 1 2)), ("fat", Json.num (mkRat 3 10)),
    ("carbs", Json.num 25)]

/-- A vision oracle resolving to the apple nutrition record. -/
def visionApple : Json → Except String Json := fun _ => Except.ok appleJson

/-- C3 witness: the statement evaluated on a concrete request with a
succeeding vision client, together with the concrete pretty-printed text
it produces. -/
theorem C3_witness :
    (serve visionApple "POST" (Except.ok c2Body) =
      (ok200 (rpcResult (c2Body.getField "id") (toolOkResult appleJson)),
       [Json.str "https://example.com/food.jpg"]) ∧
    (rpcResult (c2Body.getField "id") (toolOkResult appleJson)).getField "error" = none ∧
    (toolOkResult appleJson).getField "isError" = some (Json.bool false) ∧
    getOpt (((toolOkResult appleJson).getField "content").bind getIndexZero) "text" =
      some (Json.str (stringify2 appleJson))) ∧
    stringify2 appleJson =
      "\x7b\n  \"name\": \"Apple\",\n  \"calories\": 95,\n  \"protein\": 0.5,\n  \"fat\": 0.3,\n  \"carbs\": 25\n\x7d" :=
  ⟨C3_tool_success_result visionApple c2Body (Json.str "https://example.com/food.jpg") appleJson
    (by decide) (by decide) (by decide) (by decide) (by decide) rfl, rfl⟩

/-- C4: a `tools/call` for `analyze_food_image` whose
`params.arguments.imageUrl` is absent is answered with HTTP 200 and a
JSON-RPC error envelope with code -32602 and message
`Invalid params: imageUrl is required`, and the vision client is not
invoked (the call list is empty). -/
theorem C4_missing_imageUrl (vision : Json → Except String Json) (body : Json)
    (h1 : body.getField "jsonrpc" = some (Json.str "2.0"))
    (h2 : body.getField "method" = some (Json.str "tools/call"))
    (h3 : getOpt (body.getField "params") "name" = some (Json.str "analyze_food_image"))
    (h4 : getOpt (getOpt (body.getField "params") "arguments") "imageUrl" = none) :
    serve vision "POST" (Except.ok body) =
      (ok200 (rpcError (body.getField "id") (-32602) "Invalid params: imageUrl is required"),
       []) ∧
    getOpt ((rpcError (body.getField "id") (-32602)
        "Invalid params: imageUrl is required").getField "error") "code" =
      some (Json.num (-32602 : ℚ)) ∧
    getOpt ((rpcError (body.getField "id") (-32602)
        "Invalid params: imageUrl is required").getField "error") "message" =
      some (Json.str "Invalid params: imageUrl is required") := by
  refine ⟨?_, rpcError_code _ _ _, rpcError_message _ _ _⟩
  rw [serve_post, serveBody_missing_imageUrl vision body h1 h2 h3 h4]

/-- A `tools/call` for `analyze_food_image` with no `imageUrl` argument. -/
def c4Body : Json :=
  Json.mkObj [("jsonrpc", Json.str "2.0"), ("id", Json.num 3),
    ("method", Json.str "tools/call"),
    ("params", Json.mkObj [("name", Json.str "analyze_food_image"),
       ("arguments", Json.mkObj [("foo", Json.str "bar")])])]

/-- C4 witness: the statement evaluated on a concrete request lacking
`imageUrl`, with a vision oracle that could only answer; it is never
asked. -/
theorem C4_witness :
    serve visionApple "POST" (Except.ok c4Body) =
      (ok200 (rpcError (c4Body.getField "id") (-32602) "Invalid params: imageUrl is required"),
       []) ∧
    getOpt ((rpcError (c4Body.getField "id") (-32602)
        "Invalid params: imageUrl is required").getField "error") "code" =
      some (Json.num (-32602 : ℚ)) ∧
    getOpt ((rpcError (c4Body.getField "id") (-32602)
        "Invalid params: imageUrl is required").getField "error") "message" =
      some (Json.str "Invalid params: imageUrl is required") :=
  C4_missing_imageUrl visionApple c4Body (by decide) (by decide) (by decide) (by decide)

/-- The `_async` marker of the placeholder result. -/
lemma asyncResult_async (n a : Option Json) :
    (asyncResult n a).getField "_async" = some (Json.bool true) := by
  cases n <;> cases a <;> rfl

/-- The serialized placeholder's `toolName` is exactly `params?.name`
(absent when the lookup is `undefined`). -/
lemma asyncResult_toolName (n a : Option Json) :
    (asyncResult n a).getField "toolName" = n := by
  cases n <;> cases a <;> rfl

/-- The serialized placeholder's `arguments` is exactly
`params?.arguments` (absent when the lookup is `undefined`). -/
lemma asyncResult_arguments (n a : Option Json) :
    (asyncResult n a).getField "arguments" = a := by
  cases n <;> cases a <;> rfl

/-- The placeholder result carries no `isError` flag. -/
lemma asyncResult_isError_none (n a : Option Json) :
    (asyncResult n a).getField "isError" = none := by
  cases n <;> cases a <;> rfl

/-- C5: a `tools/call` whose `params.name` is anything other than
`analyze_food_image` (including absent) is answered with HTTP 200 and a
JSON-RPC success envelope whose result is the placeholder
`(_async: true, toolName: params.name, arguments: params.arguments)` —
carrying no `error` member and no `isError` flag — and the vision client
is not invoked. -/
theorem C5_other_tool_async (vision : Json → Except String Json) (body : Json)
    (h1 : body.getField "jsonrpc" = some (Json.str "2.0"))
    (h2 : body.getField "method" = some (Json.str "tools/call"))
    (h3 : getOpt (body.getField "params") "name" ≠ some (Json.str "analyze_food_image")) :
    serve vision "POST" (Except.ok body) =
      (ok200 (rpcResult (body.getField "id")
        (asyncResult (getOpt (body.getField "params") "name")
          (getOpt (body.getField "params") "arguments"))), []) ∧
    (asyncResult (getOpt (body.getField "params") "name")
        (getOpt (body.getField "params") "arguments")).getField "_async" =
      some (Json.bool true) ∧
    (asyncResult (getOpt (body.getField "params") "name")
        (getOpt (body.getField "params") "arguments")).getField "toolName" =
      getOpt (body.getField "params") "name" ∧
    (asyncResult (getOpt (body.getField "params") "name")
        (getOpt (body.getField "params") "arguments")).getField "arguments" =
      getOpt (body.getField "params") "arguments" ∧
    (asyncResult (getOpt (body.getField "params") "name")
        (getOpt (body.getField "params") "arguments")).getField "isError" = none ∧
    (rpcResult (body.getField "id")
        (asyncResult (getOpt (body.getField "params") "name")
          (getOpt (body.getField "params") "arguments"))).getField "error" = none := by
  refine ⟨?_, asyncResult_async _ _, asyncResult_toolName _ _, asyncResult_arguments _ _,
    asyncResult_isError_none _ _, rpcResult_error_none _ _⟩
  rw [serve_post, serveBody_other_tool vision body h1 h2 h3,
    handleMCP_tools_call body h1 h2]

/-- A `tools/call` naming a tool this server does not have. -/
def c5Body : Json :=
  Json.mkObj [("jsonrpc", Json.str "2.0"), ("id", Json.num 9),
    ("method", Json.str "tools/call"),
    ("params", Json.mkObj [("name", Json.str "translate_text"),
       ("arguments", Json.mkObj [("text", Json.str "hi")])])]

/-- C5 witness: the statement evaluated on a concrete request naming an
unknown tool. -/
theorem C5_witness :
    serve visionApple "POST" (Except.ok c5Body) =
      (ok200 (rpcResult (c5Body.getField "id")
        (asyncResult (getOpt (c5Body.getField "params") "name")
          (getOpt (c5Body.getField "params") "arguments"))), []) ∧
    (asyncResult (getOpt (c5Body.getField "params") "name")
        (getOpt (c5Body.getField "params") "arguments")).getField "_async" =
      some (Json.bool true) ∧
    (asyncResult (getOpt (c5Body.getField "params") "name")
        (getOpt (c5Body.getField "params") "arguments")).getField "toolName" =
      getOpt (c5Body.getField "params") "name" ∧
    (asyncResult (getOpt (c5Body.getField "params") "name")
        (getOpt (c5Body.getField "params") "arguments")).getField "arguments" =
      getOpt (c5Body.getField "params") "arguments" ∧
    (asyncResult (getOpt (c5Body.getField "params") "name")
        (getOpt (c5Body.getField "params") "arguments")).getField "isError" = none ∧
    (rpcResult (c5Body.getField "id")
        (asyncResult (getOpt (c5Body.getField "params") "name")
          (getOpt (c5Body.getField "params") "arguments"))).getField "error" = none :=
  C5_other_tool_async visionApple c5Body (by decide) (by decide) (by decide)

/-- On a successful status with a non-null parsed body,
`analyzeFoodImage` is determined by the extracted content field. -/
lemma analyzeFoodImage_ok_eq (parse : String → Except String Json) (resp : FetchResponse)
    (h : fetchOk resp = true) (hnn : resp.body ≠ Json.null) :
    analyzeFoodImage parse resp =
      match extractContent resp.body with
      | some (Json.str s) =>
          if s = "" then Except.error "No content in OpenAI response"
          else parse (cleanContent s)
      | some v =>
          if jsTruthy v then Except.error "content.replace is not a function"
          else Except.error "No content in OpenAI response"
      | none => Except.error "No content in OpenAI response" := by
  cases hb : resp.body
  · exact absurd hb hnn
  all_goals simp only [analyzeFoodImage, h, hb, if_pos]

/-- C6 amended: the vision client core fails with a message that includes
the HTTP status code on a non-success status; fails with message
`No content in OpenAI response` (not the claim's "No content in
response") when the extracted textual content is missing or falsy; and
otherwise hands to `JSON.parse` the content with ALL occurrences of the
markdown fence markers removed (not only leading/trailing ones) and the
result trimmed, propagating whatever the parse returns. -/
theorem C6_amended (parse : String → Except String Json) (resp : FetchResponse) (s : String) :
    (fetchOk resp = false →
       analyzeFoodImage parse resp =
         Except.error ("OpenAI API error: " ++ toString resp.status) ∧
       ∃ pre post, "OpenAI API error: " ++ toString resp.status =
         pre ++ toString resp.status ++ post) ∧
    (fetchOk resp = true → resp.body ≠ Json.null →
       truthyOpt (extractContent resp.body) = false →
       analyzeFoodImage parse resp = Except.error "No content in OpenAI response") ∧
    (fetchOk resp = true → extractContent resp.body = some (Json.str s) → s ≠ "" →
       analyzeFoodImage parse resp = parse (cleanContent s)) := by
  refine ⟨?_, ?_, ?_⟩
  · intro h
    refine ⟨by simp [analyzeFoodImage, h], "OpenAI API error: ", "", by simp⟩
  · intro h hnn htru
    rw [analyzeFoodImage_ok_eq parse resp h hnn]
    rcases hext : extractContent resp.body with _ | v
    · rfl
    · rw [hext] at htru
      simp only [truthyOpt] at htru
      cases v <;> simp_all [jsTruthy]
  · intro h hext hs
    have hnn : resp.body ≠ Json.null := by
      rintro hb
      rw [hb] at hext
      simp [extractContent, Json.getField, getOpt] at hext
    rw [analyzeFoodImage_ok_eq parse resp h hnn, hext]
    simp [hs]

/-- A successful fetch whose body has an empty `choices` array. -/
def noContentResp : FetchResponse :=
  { status := 200, body := Json.mkObj [("choices", Json.mkArr [])] }

/-- A successful fetch whose content has a fence marker in the MIDDLE of
the text and none at the edges. -/
def midFenceResp : FetchResponse :=
  { status := 200,
    body := Json.mkObj [("choices", Json.mkArr
      [Json.mkObj [("message", Json.mkObj [("content", Json.str "a```b")])]])] }

/-- C6 counterexample: (1) on a response lacking content the thrown
message is `No content in OpenAI response`, which is not the claim's
"No content in response"; (2) on the content `a```b` the code hands the
parser `ab` (the global replace removes the interior marker), while
stripping only leading/trailing markers would hand it `a```b`. -/
theorem C6_counterexample :
    (analyzeFoodImage parseId noContentResp =
       Except.error "No content in OpenAI response" ∧
     "No content in OpenAI response" ≠ "No content in response") ∧
    (analyzeFoodImage parseId midFenceResp = Except.ok (Json.str "ab") ∧
     parseId (jsTrim (stripFencesSpec "a```b")) = Except.ok (Json.str "a```b") ∧
     Json.str "ab" ≠ Json.str "a```b") :=
  ⟨⟨rfl, by decide⟩, rfl, rfl, by decide⟩

/-- C6 witness: the amended statement evaluated on a 503 response, on a
contentless response, and on the mid-fence content. -/
theorem C6_witness :
    (analyzeFoodImage parseId { status := 503, body := Json.null } =
       Except.error ("OpenAI API error: " ++ toString (503 : Nat)) ∧
     ∃ pre post, "OpenAI API error: " ++ toString (503 : Nat) =
       pre ++ toString (503 : Nat) ++ post) ∧
    analyzeFoodImage parseId noContentResp =
      Except.error "No content in OpenAI response" ∧
    analyzeFoodImage parseId midFenceResp = parseId (cleanContent "a```b") :=
  ⟨(C6_amended parseId { status := 503, body := Json.null } "").1 (by decide),
   (C6_amended parseId noContentResp "").2.1 (by decide) (by decide) (by decide),
   (C6_amended parseId midFenceResp "a```b").2.2 (by decide) (by decide) (by decide)⟩

/-- The response the `try`-wrapper extracts from the body handler's
outcome: the handler's own response, or the 500 catch-all. -/
def responseOf (x : Except String HttpResponse) : HttpResponse :=
  match x with
  | Except.ok r => r
  | Except.error e => err500 e

/-- Every response the POST body handler can produce — directly or via
the catch-all — carries exactly the two standard headers. -/
lemma responseOf_serveBody_headers (vision : Json → Except String Json) (body : Json) :
    (responseOf (serveBody vision body).1).headers = corsJsonHeaders := by
  unfold serveBody
  repeat' (split <;> try rfl)

/-- Every non-preflight response carries exactly the two standard
headers. -/
lemma serve_headers (vision : Json → Except String Json) (method : String)
    (rawBody : Except String Json) (h : ¬ method = "OPTIONS") :
    (serve vision method rawBody).1.headers = corsJsonHeaders := by
  unfold serve
  rw [if_neg h]
  cases rawBody with
  | error e => rfl
  | ok body =>
    have hh := responseOf_serveBody_headers vision body
    rcases hsb : serveBody vision body with ⟨x, calls⟩
    rw [hsb] at hh
    simp only [hsb]
    cases x
    · rfl
    · simpa [responseOf] using hh

/-- C7 counterexample: the OPTIONS preflight response carries only the
three CORS headers — `Access-Control-Allow-Origin: *` is present but
`Content-Type: application/json` is NOT, so not every response carries
both claimed headers. -/
theorem C7_counterexample :
    (serve visionStub "OPTIONS" (Except.ok Json.null)).1.headers = corsPreflightHeaders ∧
    List.lookup "Content-Type"
      (serve visionStub "OPTIONS" (Except.ok Json.null)).1.headers = none ∧
    List.lookup "Access-Control-Allow-Origin"
      (serve visionStub "OPTIONS" (Except.ok Json.null)).1.headers = some "*" :=
  ⟨rfl, rfl, rfl⟩

/-- C7 amended: every response to a non-OPTIONS request — across the
protocol, legacy, 400 and 500 paths, for every vision outcome — carries
both `Content-Type: application/json` and
`Access-Control-Allow-Origin: *`; the OPTIONS preflight response carries
the latter but not the former. -/
theorem C7_amended (vision : Json → Except String Json) (method : String)
    (rawBody : Except String Json) (h : method ≠ "OPTIONS") :
    List.lookup "Content-Type" (serve vision method rawBody).1.headers =
      some "application/json" ∧
    List.lookup "Access-Control-Allow-Origin" (serve vision method rawBody).1.headers =
      some "*" ∧
    List.lookup "Access-Control-Allow-Origin" preflightResp.headers = some "*" ∧
    List.lookup "Content-Type" preflightResp.headers = none := by
  rw [serve_headers vision method rawBody h]
  exact ⟨rfl, rfl, rfl, rfl⟩

/-- C7 witness: the amended statement evaluated on a POST whose body is
not even valid JSON (the 500 path). -/
theorem C7_witness :
    List.lookup "Content-Type"
      (serve visionStub "POST" (Except.error "Unexpected end of JSON input")).1.headers =
      some "application/json" ∧
    List.lookup "Access-Control-Allow-Origin"
      (serve visionStub "POST" (Except.error "Unexpected end of JSON input")).1.headers =
      some "*" ∧
    List.lookup "Access-Control-Allow-Origin" preflightResp.headers = some "*" ∧
    List.lookup "Content-Type" preflightResp.headers = none :=
  C7_amended visionStub "POST" (Except.error "Unexpected end of JSON input") (by decide)

/-- A non-MCP body whose `image` field is present but empty. -/
def c8Body : Json := Json.mkObj [("image", Json.str "")]

/-- C8 counterexample: on a body that HAS an `image` field (the empty
string) and no `jsonrpc: "2.0"`, the server answers 400
`(error: Invalid request format)` and never invokes the vision client
(even one that would succeed), instead of calling it and returning its
object verbatim: `if (image)` is a truthiness test, not a presence
test. -/
theorem C8_counterexample :
    (c8Body.getField "image").isSome ∧
    (serve visionOk "POST" (Except.ok c8Body)).1 = invalidFormatResp ∧
    (serve visionOk "POST" (Except.ok c8Body)).2 = [] ∧
    invalidFormatResp.status = 400 :=
  ⟨rfl, rfl, rfl, rfl⟩

/-- On the legacy path with a truthy `image` and a resolving vision
call, the handler returns the resolved object directly. -/
lemma serveBody_legacy_ok (vision : Json → Except String Json) (body img d : Json)
    (hne : body.getField "jsonrpc" ≠ some (Json.str "2.0"))
    (himg : body.getField "image" = some img)
    (htru : jsTruthy img = true)
    (hv : vision img = Except.ok d) :
    serveBody vision body = (Except.ok (ok200 d), [img]) := by
  obtain ⟨fs, rfl⟩ : ∃ fs, body = Json.obj fs := by
    cases body <;> simp [Json.getField] at himg ⊢
  simp only [serveBody, himg, htru, hv, if_pos]

/-- C8 amended: on a POST whose body has no `jsonrpc: "2.0"` but a
TRUTHY `image` value (e.g. a non-empty string URL or data URL), the
server invokes the vision client exactly on that value and, when it
resolves with `d`, answers HTTP 200 with `d` itself serialized at the
top level — no JSON-RPC envelope. -/
theorem C8_legacy_verbatim (vision : Json → Except String Json) (body img d : Json)
    (hne : body.getField "jsonrpc" ≠ some (Json.str "2.0"))
    (himg : body.getField "image" = some img)
    (htru : jsTruthy img = true)
    (hv : vision img = Except.ok d) :
    serve vision "POST" (Except.ok body) = (ok200 d, [img]) := by
  rw [serve_post, serveBody_legacy_ok vision body img d hne himg htru hv]

/-- C8 witness: a concrete legacy request with a data-URL image and the
apple-resolving vision client. -/
theorem C8_witness :
    serve visionApple "POST"
      (Except.ok (Json.mkObj [("image", Json.str "data:image/jpeg;base64,AAA")])) =
      (ok200 appleJson, [Json.str "data:image/jpeg;base64,AAA"]) :=
  C8_legacy_verbatim visionApple
    (Json.mkObj [("image", Json.str "data:image/jpeg;base64,AAA")])
    (Json.str "data:image/jpeg;base64,AAA") appleJson
    (by decide) (by decide) (by decide) rfl

/-- An MCP request whose method is not `tools/call` is dispatched to
`handleMCPRequest`, with the vision client never invoked. -/
lemma serveBody_not_toolscall (vision : Json → Except String Json) (body : Json)
    (h1 : body.getField "jsonrpc" = some (Json.str "2.0"))
    (hnc : body.getField "method" ≠ some (Json.str "tools/call")) :
    serveBody vision body = (Except.ok (ok200 (handleMCPRequest body)), []) := by
  obtain ⟨fs, rfl⟩ : ∃ fs, body = Json.obj fs := by
    cases body <;> simp [Json.getField] at h1 ⊢
  simp only [serveBody, h1]

/-- The `switch` default of `handleMCPRequest`: an unrecognized string
method produces the -32601 envelope with the method interpolated into
the message. -/
lemma handleMCP_default (body : Json) (m : String)
    (h1 : body.getField "jsonrpc" = some (Json.str "2.0"))
    (h2 : body.getField "method" = some (Json.str m))
    (hm1 : m ≠ "initialize") (hm2 : m ≠ "tools/list") (hm3 : m ≠ "tools/call") :
    handleMCPRequest body =
      rpcError (body.getField "id") (-32601) ("Method not found: " ++ m) := by
  simp only [handleMCPRequest, h1, h2]
  split
  · rename_i heq
    injection heq with heq'
    injection heq' with heq''
    exact absurd heq'' hm1
  · rename_i heq
    injection heq with heq'
    injection heq' with heq''
    exact absurd heq'' hm2
  · rename_i heq
    injection heq with heq'
    injection heq' with heq''
    exact absurd heq'' hm3
  · simp [jsDisplayOpt, jsDisplay]

/-- C9: an MCP request whose (string) method is none of `initialize`,
`tools/list`, `tools/call` is answered with HTTP 200 and a JSON-RPC
error envelope with code -32601 whose message
`Method not found: <method>` contains the request's method string. -/
theorem C9_method_not_found (vision : Json → Except String Json) (body : Json) (m : String)
    (h1 : body.getField "jsonrpc" = some (Json.str "2.0"))
    (h2 : body.getField "method" = some (Json.str m))
    (hm1 : m ≠ "initialize") (hm2 : m ≠ "tools/list") (hm3 : m ≠ "tools/call") :
    serve vision "POST" (Except.ok body) =
      (ok200 (rpcError (body.getField "id") (-32601) ("Method not found: " ++ m)), []) ∧
    getOpt ((rpcError (body.getField "id") (-32601)
        ("Method not found: " ++ m)).getField "error") "code" =
      some (Json.num (-32601 : ℚ)) ∧
    ∃ pre post, "Method not found: " ++ m = pre ++ m ++ post := by
  have hnc : body.getField "method" ≠ some (Json.str "tools/call") := by
    rw [h2]
    intro hcc
    injection hcc with hcc'
    injection hcc' with hcc''
    exact hm3 hcc''
  refine ⟨?_, rpcError_code _ _ _, "Method not found: ", "", by simp⟩
  rw [serve_post, serveBody_not_toolscall vision body h1 hnc,
    handleMCP_default body m h1 h2 hm1 hm2 hm3]

/-- An MCP request with the unknown method `foo/bar`. -/
def c9Body : Json :=
  Json.mkObj [("jsonrpc", Json.str "2.0"), ("id", Json.num 2),
    ("method", Json.str "foo/bar")]

/-- C9 witness: the statement evaluated on the unknown method
`foo/bar`. -/
theorem C9_witness :
    serve visionStub "POST" (Except.ok c9Body) =
      (ok200 (rpcError (c9Body.getField "id") (-32601) ("Method not found: " ++ "foo/bar")),
       []) ∧
    getOpt ((rpcError (c9Body.getField "id") (-32601)
        ("Method not found: " ++ "foo/bar")).getField "error") "code" =
      some (Json.num (-32601 : ℚ)) ∧
    ∃ pre post, "Method not found: " ++ "foo/bar" = pre ++ "foo/bar" ++ post :=
  C9_method_not_found visionStub c9Body "foo/bar"
    (by decide) (by decide) (by decide) (by decide) (by decide)

/-- C10: an MCP `initialize` request — whatever its `params` — is
answered with HTTP 200 and a success envelope whose result carries
`protocolVersion: "2024-11-05"` and `capabilities.tools` present as the
empty object. -/
theorem C10_initialize (vision : Json → Except String Json) (body : Json)
    (h1 : body.getField "jsonrpc" = some (Json.str "2.0"))
    (h2 : body.getField "method" = some (Json.str "initialize")) :
    serve vision "POST" (Except.ok body) =
      (ok200 (rpcResult (body.getField "id") initializeResult), []) ∧
    initializeResult.getField "protocolVersion" = some (Json.str "2024-11-05") ∧
    getOpt (initializeResult.getField "capabilities") "tools" = some (Json.mkObj []) := by
  have hnc : body.getField "method" ≠ some (Json.str "tools/call") := by
    rw [h2]
    intro hcc
    injection hcc with hcc'
    injection hcc' with hcc''
    exact absurd hcc'' (by decide)
  have hmcp : handleMCPRequest body = rpcResult (body.getField "id") initializeResult := by
    simp only [handleMCPRequest, h1, h2]
  refine ⟨?_, rfl, rfl⟩
  rw [serve_post, serveBody_not_toolscall vision body h1 hnc, hmcp]

/-- An `initialize` request carrying params the server must ignore. -/
def c10Body : Json :=
  Json.mkObj [("jsonrpc", Json.str "2.0"), ("id", Json.num 1),
    ("method", Json.str "initialize"),
    ("params", Json.mkObj [("protocolVersion", Json.str "2091-01-01"),
       ("clientInfo", Json.mkObj [("name", Json.str "tester")])])]

/-- C10 witness: the statement evaluated on an `initialize` request whose
params ask for a different protocol version (and are ignored). -/
theorem C10_witness :
    serve visionStub "POST" (Except.ok c10Body) =
      (ok200 (rpcResult (c10Body.getField "id") initializeResult), []) ∧
    initializeResult.getField "protocolVersion" = some (Json.str "2024-11-05") ∧
    getOpt (initializeResult.getField "capabilities") "tools" = some (Json.mkObj []) :=
  C10_initialize visionStub c10Body (by decide) (by decide)
